import Mathlib

/-!
Shallow embedding of the orchestration logic of the OCR single-page
application (src/src/pages/Index.tsx): JavaScript string trimming and
whitespace splitting, `Math.round`, the result-record builder, and the
state transitions of `processImage`, `processPDF`, `onDrop`,
`copyToClipboard` and `reset`.
-/

/-- Whitespace per the ECMAScript class used by `trim()` and the regex
class in `split(/\s+/)`: tab, line feed, vertical tab, form feed,
carriage return, space, no-break space, BOM, and the Unicode space
separators. -/
def jsIsWs (c : Char) : Bool :=
  c.toNat = 0x09 || c.toNat = 0x0A || c.toNat = 0x0B || c.toNat = 0x0C ||
  c.toNat = 0x0D || c.toNat = 0x20 || c.toNat = 0xA0 || c.toNat = 0x1680 ||
  (0x2000 ≤ c.toNat && c.toNat ≤ 0x200A) || c.toNat = 0x2028 ||
  c.toNat = 0x2029 || c.toNat = 0x202F || c.toNat = 0x205F ||
  c.toNat = 0x3000 || c.toNat = 0xFEFF

/-- Character-list form of JavaScript `String.prototype.trim`: drop
leading and trailing whitespace. -/
def trimChars (l : List Char) : List Char :=
  ((l.dropWhile jsIsWs).reverse.dropWhile jsIsWs).reverse

/-- JavaScript `text.trim()` (line 44 of Index.tsx). -/
def jsTrim (s : String) : String :=
  ⟨trimChars s.data⟩

/-- Worker loop for JavaScript `split(/\s+/)`: `inRun` records whether the
previous character belonged to a whitespace run (a run is a single
separator), `acc` holds the current token reversed. -/
def splitWsGo : Bool → List Char → List Char → List (List Char)
  | _, acc, [] => [acc.reverse]
  | inRun, acc, c :: rest =>
    if jsIsWs c then
      if inRun then splitWsGo true acc rest
      else acc.reverse :: splitWsGo true [] rest
    else splitWsGo false (c :: acc) rest

/-- JavaScript `s.split(/\s+/)`: tokens (as character lists) between
maximal whitespace runs, with an empty leading (trailing) token when the
string starts (ends) with whitespace, and one empty token on the empty
string. -/
def jsSplitWs (s : String) : List (List Char) :=
  splitWsGo false [] s.data

/-- Line 41 of Index.tsx:
`text.trim().split(/\s+/).filter(word => word.length > 0).length`. -/
def wordCount (text : String) : Nat :=
  ((jsSplitWs (jsTrim text)).filter (fun w => w.length > 0)).length

/-- JavaScript `Math.round` on a rational: floor of `q + 1/2`
(ties round toward positive infinity). -/
def jsRound (q : ℚ) : ℤ :=
  ⌊q + 1 / 2⌋

/-- The `ExtractedData` record (lines 10-17 of Index.tsx). -/
structure ExtractedData where
  text : String
  confidence : ℤ
  fileName : String
  fileType : String
  timestamp : String
  wordCount : Nat
  deriving Repr, DecidableEq

/-- The name and declared MIME type of a dropped file. -/
structure FileInfo where
  name : String
  type : String
  deriving Repr, DecidableEq

/-- Construction of the result record (lines 41-50 of Index.tsx) from the
raw recognized text, the raw engine confidence, the file, and the
timestamp taken at build time. -/
def buildResult (text : String) (confidence : ℚ) (file : FileInfo)
    (now : String) : ExtractedData :=
  { text := jsTrim text
    confidence := jsRound confidence
    fileName := file.name
    fileType := file.type
    timestamp := now
    wordCount := wordCount text }

/-- The UI state held in the component (lines 20-22 of Index.tsx;
`dragActive` is presentation-only and omitted). -/
structure AppState where
  isProcessing : Bool
  progress : ℤ
  extractedData : Option ExtractedData
  deriving Repr, DecidableEq

/-- The initial state: `useState(false)`, `useState(0)`, `useState(null)`. -/
def initialState : AppState :=
  { isProcessing := false, progress := 0, extractedData := none }

/-- A logger notification from the engine: a status string and a
fractional completion value. -/
structure LoggerMsg where
  status : String
  progress : ℚ

/-- The logger callback (lines 31-35 of Index.tsx): on a
"recognizing text" notification set `progress` to
`Math.round(m.progress * 100)`, otherwise do nothing. -/
def loggerStep (m : LoggerMsg) (s : AppState) : AppState :=
  if m.status = "recognizing text" then
    { s with progress := jsRound (m.progress * 100) }
  else
    s

/-- Behaviour of the external engine during one `processImage` call:
whether `createWorker` resolves, the logger notifications delivered,
whether `recognize` resolves, and on success the raw text, raw confidence
and the timestamp taken at result construction. -/
structure OcrEnv where
  createWorkerOk : Bool
  msgs : List LoggerMsg
  recognizeOk : Bool
  rawText : String
  rawConfidence : ℚ
  now : String

/-- Outcome of one `processImage` / `processPDF` / `onDrop` invocation:
the final state plus the externally visible effects. -/
structure ProcResult where
  state : AppState
  workerCreated : Bool
  workerTerminated : Bool
  successToasts : ℕ
  errorToasts : ℕ
  deriving Repr

/-- `processImage` (lines 25-61 of Index.tsx). Sets `isProcessing := true`
and `progress := 0`; then `createWorker` either throws (caught: one error
toast) or yields a worker whose logger messages update progress;
`recognize` either throws (caught: one error toast — note
`worker.terminate()` on line 39 sits inside the `try` after `recognize`,
so it is not reached on this path) or yields text and confidence, after
which the worker is terminated, the result record is built and stored and
one success toast fires. The `finally` block (lines 57-60) resets
`isProcessing` and `progress` on every path. -/
def processImage (env : OcrEnv) (file : FileInfo) (s : AppState) :
    ProcResult :=
  let s1 : AppState := { s with isProcessing := true, progress := 0 }
  if env.createWorkerOk = false then
    { state := { s1 with isProcessing := false, progress := 0 }
      workerCreated := false, workerTerminated := false
      successToasts := 0, errorToasts := 1 }
  else
    let s2 := env.msgs.foldl (fun st m => loggerStep m st) s1
    if env.recognizeOk = false then
      { state := { s2 with isProcessing := false, progress := 0 }
        workerCreated := true, workerTerminated := false
        successToasts := 0, errorToasts := 1 }
    else
      let r := buildResult env.rawText env.rawConfidence file env.now
      { state := { isProcessing := false, progress := 0
                   extractedData := some r }
        workerCreated := true, workerTerminated := true
        successToasts := 1, errorToasts := 0 }

/-- `processPDF` (lines 63-65 of Index.tsx): a single error toast,
nothing else. -/
def processPDF (_file : FileInfo) (s : AppState) : ProcResult :=
  { state := s, workerCreated := false, workerTerminated := false
    successToasts := 0, errorToasts := 1 }

/-- `onDrop` (lines 67-76 of Index.tsx): take the first accepted file, do
nothing if there is none, route `application/pdf` to `processPDF` and
everything else to `processImage`. -/
def onDrop (env : OcrEnv) (files : List FileInfo) (s : AppState) :
    ProcResult :=
  match files with
  | [] =>
    { state := s, workerCreated := false, workerTerminated := false
      successToasts := 0, errorToasts := 0 }
  | file :: _ =>
    if file.type = "application/pdf" then processPDF file s
    else processImage env file s

/-- Outcome of one `copyToClipboard` invocation: the final state, the
number of attempted clipboard writes, and the toasts shown. -/
structure CopyResult where
  state : AppState
  clipboardWrites : ℕ
  successToasts : ℕ
  errorToasts : ℕ
  deriving Repr, DecidableEq

/-- `copyToClipboard` (lines 89-98 of Index.tsx): return immediately when
no result record is live; otherwise attempt one clipboard write, with a
success toast when it resolves and an error toast when it throws. -/
def copyToClipboard (clipboardOk : Bool) (s : AppState) : CopyResult :=
  match s.extractedData with
  | none =>
    { state := s, clipboardWrites := 0, successToasts := 0, errorToasts := 0 }
  | some _ =>
    if clipboardOk then
      { state := s, clipboardWrites := 1, successToasts := 1, errorToasts := 0 }
    else
      { state := s, clipboardWrites := 1, successToasts := 0, errorToasts := 1 }

/-- `reset` (lines 100-103 of Index.tsx): discard the result record and
zero the progress value. -/
def reset (s : AppState) : AppState :=
  { s with extractedData := none, progress := 0 }

/-- The displayed text preview (lines 230-231 of Index.tsx):
`text.substring(0, 500)` followed by a continuation marker exactly when
the text is longer than 500 characters. -/
def previewText (s : String) : String :=
  ⟨s.data.take 500⟩ ++ (if 500 < s.data.length then "..." else "")

/-- One user-driven transition of the application state: a drop (which
routes to the image pipeline or the PDF stub), a clipboard export, or a
reset. -/
inductive Step : AppState → AppState → Prop where
  | drop (env : OcrEnv) (files : List FileInfo) (s : AppState) :
      Step s (onDrop env files s).state
  | copy (ok : Bool) (s : AppState) :
      Step s (copyToClipboard ok s).state
  | resetApp (s : AppState) :
      Step s (reset s)

/-- States reachable from the initial state by user-driven transitions. -/
inductive Reachable : AppState → Prop where
  | init : Reachable initialState
  | step {s s' : AppState} : Reachable s → Step s s' → Reachable s'

/-- Specification-level token count: the number of whitespace-delimited
non-empty tokens, counted directly by a scan that charges one token at
each non-whitespace character that starts a maximal non-whitespace run
(`inTok` records whether the previous character was non-whitespace). -/
def tokenCountGo : Bool → List Char → ℕ
  | _, [] => 0
  | inTok, c :: rest =>
    if jsIsWs c then tokenCountGo false rest
    else (if inTok then 0 else 1) + tokenCountGo true rest

/-- The number of whitespace-delimited non-empty tokens in a string. -/
def tokenCount (s : String) : ℕ :=
  tokenCountGo false s.data

/-- Sample image file used to instantiate the theorems. -/
def pngFile : FileInfo :=
  { name := "scan.png", type := "image/png" }

/-- Sample PDF file used to instantiate the theorems. -/
def pdfFile : FileInfo :=
  { name := "doc.pdf", type := "application/pdf" }

/-- Engine behaviour where both `createWorker` and `recognize` resolve. -/
def okEnv : OcrEnv :=
  { createWorkerOk := true, msgs := [], recognizeOk := true
    rawText := "Hello   World\n", rawConfidence := 87 / 100
    now := "2026-10-12T00:00:00.000Z" }

/-- Engine behaviour where `recognize` rejects after the worker was
created. -/
def recognizeFailEnv : OcrEnv :=
  { okEnv with recognizeOk := false }

/-- Engine behaviour where `createWorker` itself rejects. -/
def createFailEnv : OcrEnv :=
  { okEnv with createWorkerOk := false }

/-- A logger notification from the "recognizing text" phase. -/
def msgRecognizing : LoggerMsg :=
  { status := "recognizing text", progress := 1 / 2 }

/-- A logger notification from an earlier engine phase. -/
def msgLoading : LoggerMsg :=
  { status := "loading tesseract core", progress := 1 / 2 }

/-- A 600-character text. -/
def chars600 : String :=
  ⟨List.replicate 600 'x'⟩

/-- A 400-character text. -/
def chars400 : String :=
  ⟨List.replicate 400 'x'⟩

lemma jsRound_frac87 : jsRound (87 / 100 : ℚ) = 1 :=
  Int.floor_eq_iff.mpr (by norm_num)

lemma splitWsGo_filter_length (l : List Char) :
    (∀ acc : List Char,
      ((splitWsGo false acc l).filter (fun w => w.length > 0)).length
        = (if acc.isEmpty then 0 else 1) + tokenCountGo (!acc.isEmpty) l)
    ∧ ((splitWsGo true [] l).filter (fun w => w.length > 0)).length
        = tokenCountGo false l := by
  induction l with
  | nil =>
    refine ⟨fun acc => ?_, ?_⟩
    · cases acc <;> simp [splitWsGo, tokenCountGo, List.filter]
    · simp [splitWsGo, tokenCountGo, List.filter]
  | cons c rest ih =>
    obtain ⟨ihP, ihQ⟩ := ih
    cases hc : jsIsWs c with
    | true =>
      refine ⟨fun acc => ?_, ?_⟩
      · cases acc with
        | nil => simp [splitWsGo, tokenCountGo, hc, List.filter, ihQ]
        | cons a t =>
          simp [splitWsGo, tokenCountGo, hc, List.filter, ihQ]
          omega
      · simp [splitWsGo, tokenCountGo, hc, ihQ]
    | false =>
      refine ⟨fun acc => ?_, ?_⟩
      · have h := ihP (c :: acc)
        cases acc <;>
          simp [splitWsGo, tokenCountGo, hc, List.isEmpty] at h ⊢ <;>
          omega
      · have h := ihP [c]
        simp [splitWsGo, tokenCountGo, hc, List.isEmpty] at h ⊢
        omega

lemma wordCount_eq_tokenCount (s : String) :
    wordCount s = tokenCount (jsTrim s) := by
  have h := (splitWsGo_filter_length (trimChars s.data)).1 []
  simpa [wordCount, tokenCount, jsSplitWs, jsTrim] using h

lemma tokenCountGo_eq_zero (l : List Char) :
    tokenCountGo false l = 0 ↔ l.all jsIsWs = true := by
  induction l with
  | nil => simp [tokenCountGo]
  | cons c rest ih => cases hc : jsIsWs c <;> simp [tokenCountGo, hc, ih]

lemma foldl_loggerStep_extractedData (msgs : List LoggerMsg) (s : AppState) :
    (msgs.foldl (fun st m => loggerStep m st) s).extractedData
      = s.extractedData := by
  induction msgs generalizing s with
  | nil => rfl
  | cons m rest ih =>
    rw [List.foldl_cons, ih]
    unfold loggerStep
    split <;> rfl

lemma copyToClipboard_state (ok : Bool) (s : AppState) :
    (copyToClipboard ok s).state = s := by
  cases s with
  | mk ip pr ed => cases ed <;> cases ok <;> rfl

lemma processImage_resets (env : OcrEnv) (file : FileInfo) (s : AppState) :
    (processImage env file s).state.progress = 0
    ∧ (processImage env file s).state.isProcessing = false := by
  unfold processImage
  by_cases h1 : env.createWorkerOk = false
  · simp [h1]
  · by_cases h2 : env.recognizeOk = false <;> simp [h1, h2]

lemma processImage_failure_extractedData (env : OcrEnv) (file : FileInfo)
    (s : AppState) (h : env.createWorkerOk = false ∨ env.recognizeOk = false) :
    (processImage env file s).state.extractedData = s.extractedData := by
  unfold processImage
  by_cases h1 : env.createWorkerOk = false
  · simp [h1]
  · have h2 : env.recognizeOk = false := h.resolve_left h1
    simp [h1, h2, foldl_loggerStep_extractedData]

/-- C1 (counterexample): with raw text "Hello   World\n" and raw engine
confidence 0.87, the built record does not satisfy the claimed triple —
line 45 rounds the raw confidence value directly, so the confidence field
is `Math.round(0.87) = 1`, not 87. -/
theorem buildResult_frac_confidence_counterexample :
    ¬ ((buildResult ("Hello   World\n") (87 / 100) pngFile
          ("2026-10-12T00:00:00.000Z")).text = "Hello   World"
       ∧ (buildResult ("Hello   World\n") (87 / 100) pngFile
          ("2026-10-12T00:00:00.000Z")).confidence = 87
       ∧ (buildResult ("Hello   World\n") (87 / 100) pngFile
          ("2026-10-12T00:00:00.000Z")).wordCount = 2) := by
  intro h
  have hc : (buildResult ("Hello   World\n") (87 / 100) pngFile
      ("2026-10-12T00:00:00.000Z")).confidence = 1 := jsRound_frac87
  have h87 : (87 : ℤ) = 1 := h.2.1.symm.trans hc
  exact absurd h87 (by decide)

/-- C1 (amended): with raw text "Hello   World\n" and raw engine
confidence 0.87, the built record has text "Hello   World", confidence 1
(the code rounds the raw engine confidence without scaling it to a
percentage), and wordCount 2. -/
theorem buildResult_frac_confidence_amended :
    (buildResult ("Hello   World\n") (87 / 100) pngFile
        ("2026-10-12T00:00:00.000Z")).text = "Hello   World"
    ∧ (buildResult ("Hello   World\n") (87 / 100) pngFile
        ("2026-10-12T00:00:00.000Z")).confidence = 1
    ∧ (buildResult ("Hello   World\n") (87 / 100) pngFile
        ("2026-10-12T00:00:00.000Z")).wordCount = 2 :=
  ⟨by decide, jsRound_frac87, by decide⟩

/-- C2: when `recognize` rejects after the worker was created, the worker
is never terminated — `worker.terminate()` (line 39) sits inside the `try`
after `recognize`, and neither the `catch` nor the `finally` block calls
it; on the success path it is reached. This refutes the claimed
release-on-every-exit-path guarantee. -/
theorem processImage_recognize_failure_skips_terminate :
    (processImage recognizeFailEnv pngFile initialState).workerCreated = true
    ∧ (processImage recognizeFailEnv pngFile
        initialState).workerTerminated = false
    ∧ (processImage okEnv pngFile initialState).workerTerminated = true :=
  ⟨rfl, rfl, rfl⟩

/-- C3: the built result's wordCount is the number of whitespace-delimited
non-empty tokens in the (trimmed) text field, it is zero exactly when that
text is empty or whitespace-only, and raw text "" yields wordCount 0 and
text "". -/
theorem buildResult_wordCount_spec :
    (∀ (raw : String) (conf : ℚ) (file : FileInfo) (now : String),
        (buildResult raw conf file now).wordCount
          = tokenCount ((buildResult raw conf file now).text)
        ∧ ((buildResult raw conf file now).wordCount = 0 ↔
            (buildResult raw conf file now).text = ""
            ∨ ((buildResult raw conf file now).text).data.all jsIsWs = true))
    ∧ (∀ (conf : ℚ) (file : FileInfo) (now : String),
        (buildResult ("") conf file now).wordCount = 0
        ∧ (buildResult ("") conf file now).text = "") := by
  constructor
  · intro raw conf file now
    refine ⟨wordCount_eq_tokenCount raw, ?_⟩
    show wordCount raw = 0 ↔
      jsTrim raw = "" ∨ (jsTrim raw).data.all jsIsWs = true
    rw [wordCount_eq_tokenCount raw]
    unfold tokenCount
    constructor
    · intro h0
      exact Or.inr ((tokenCountGo_eq_zero _).mp h0)
    · rintro (h | h)
      · rw [h]; rfl
      · exact (tokenCountGo_eq_zero _).mpr h
  · intro conf file now
    constructor
    · show wordCount ("") = 0
      decide
    · show jsTrim ("") = ""
      decide

/-- C3 (witness): concrete evaluation at raw text "Hello   World\n". -/
theorem buildResult_wordCount_spec_witness :
    (buildResult ("Hello   World\n") (87 / 100) pngFile ("t")).wordCount = 2
    ∧ tokenCount ((buildResult ("Hello   World\n") (87 / 100) pngFile
        ("t")).text) = 2 := by
  have h := (buildResult_wordCount_spec.1 ("Hello   World\n") (87 / 100)
    pngFile ("t")).1
  exact ⟨by decide, by rw [← h]; decide⟩

/-- C4: if recognition fails — `createWorker` or `recognize` rejects —
then afterwards progress is 0, isProcessing is false, and extractedData is
unchanged from its value before the invocation. -/
theorem processImage_failure_resets_state :
    ∀ (env : OcrEnv) (file : FileInfo) (s : AppState),
      env.createWorkerOk = false ∨ env.recognizeOk = false →
      (processImage env file s).state.progress = 0
      ∧ (processImage env file s).state.isProcessing = false
      ∧ (processImage env file s).state.extractedData = s.extractedData := by
  intro env file s h
  exact ⟨(processImage_resets env file s).1, (processImage_resets env file s).2,
    processImage_failure_extractedData env file s h⟩

/-- C4 (witness): the recognize-failure environment at the initial
state. -/
theorem processImage_failure_resets_state_witness :
    (recognizeFailEnv.createWorkerOk = false
      ∨ recognizeFailEnv.recognizeOk = false)
    ∧ (processImage recognizeFailEnv pngFile initialState).state.progress = 0
    ∧ (processImage recognizeFailEnv pngFile
        initialState).state.isProcessing = false
    ∧ (processImage recognizeFailEnv pngFile
        initialState).state.extractedData = initialState.extractedData := by
  have h := processImage_failure_resets_state recognizeFailEnv pngFile
    initialState (Or.inr rfl)
  exact ⟨Or.inr rfl, h.1, h.2.1, h.2.2⟩

/-- C5: dropping a file whose declared media type is application/pdf
leaves the whole application state unchanged, creates no worker, and
produces exactly one failure notice and no success notice. -/
theorem onDrop_pdf_noop :
    ∀ (env : OcrEnv) (files : List FileInfo) (f : FileInfo) (s : AppState),
      files.head? = some f → f.type = "application/pdf" →
      (onDrop env files s).state = s
      ∧ (onDrop env files s).workerCreated = false
      ∧ (onDrop env files s).workerTerminated = false
      ∧ (onDrop env files s).errorToasts = 1
      ∧ (onDrop env files s).successToasts = 0 := by
  intro env files f s hhead htype
  cases files with
  | nil => simp at hhead
  | cons g rest =>
    have hg : g = f := by simpa using hhead
    subst hg
    simp [onDrop, htype, processPDF]

/-- C5 (witness): dropping the sample PDF on the initial state. -/
theorem onDrop_pdf_noop_witness :
    [pdfFile].head? = some pdfFile
    ∧ pdfFile.type = "application/pdf"
    ∧ (onDrop okEnv [pdfFile] initialState).state = initialState
    ∧ (onDrop okEnv [pdfFile] initialState).workerCreated = false
    ∧ (onDrop okEnv [pdfFile] initialState).errorToasts = 1
    ∧ (onDrop okEnv [pdfFile] initialState).successToasts = 0 := by
  have h := onDrop_pdf_noop okEnv [pdfFile] pdfFile initialState rfl rfl
  exact ⟨rfl, rfl, h.1, h.2.1, h.2.2.2.1, h.2.2.2.2⟩

/-- C6: for any fractional engine confidence in [0,1], the built record's
confidence field is an integer in [0,100]. -/
theorem buildResult_confidence_range :
    ∀ (raw : String) (c : ℚ) (file : FileInfo) (now : String),
      0 ≤ c → c ≤ 1 →
      0 ≤ (buildResult raw c file now).confidence
      ∧ (buildResult raw c file now).confidence ≤ 100 := by
  intro raw c file now h0 h1
  have hlo : (0 : ℤ) ≤ jsRound c := Int.le_floor.mpr (by push_cast; linarith)
  have hhi : jsRound c < 101 := Int.floor_lt.mpr (by push_cast; linarith)
  refine ⟨hlo, ?_⟩
  show jsRound c ≤ 100
  omega

/-- C6 (witness): engine confidence 0.87. -/
theorem buildResult_confidence_range_witness :
    ((0 : ℚ) ≤ 87 / 100) ∧ ((87 : ℚ) / 100 ≤ 1)
    ∧ 0 ≤ (buildResult ("Hello   World\n") (87 / 100) pngFile
        ("t")).confidence
    ∧ (buildResult ("Hello   World\n") (87 / 100) pngFile
        ("t")).confidence ≤ 100 := by
  have h := buildResult_confidence_range ("Hello   World\n") (87 / 100)
    pngFile ("t") (by norm_num) (by norm_num)
  exact ⟨by norm_num, by norm_num, h.1, h.2⟩

/-- C7: a logger notification with status "recognizing text" sets progress
to round of its fractional completion times 100; a notification with any
other status leaves the progress value unchanged. -/
theorem loggerStep_progress_spec :
    ∀ (m : LoggerMsg) (s : AppState),
      (m.status = "recognizing text" →
        (loggerStep m s).progress = jsRound (m.progress * 100))
      ∧ (m.status ≠ "recognizing text" →
        (loggerStep m s).progress = s.progress) := by
  intro m s
  constructor
  · intro h; simp [loggerStep, h]
  · intro h; simp [loggerStep, h]

/-- C7 (witness): a "recognizing text" notification at completion 0.5 sets
progress to 50; a loading notification leaves progress unchanged. -/
theorem loggerStep_progress_spec_witness :
    msgRecognizing.status = "recognizing text"
    ∧ (loggerStep msgRecognizing initialState).progress
        = jsRound (msgRecognizing.progress * 100)
    ∧ jsRound (msgRecognizing.progress * 100) = 50
    ∧ msgLoading.status ≠ "recognizing text"
    ∧ (loggerStep msgLoading initialState).progress
        = initialState.progress := by
  refine ⟨rfl, (loggerStep_progress_spec msgRecognizing initialState).1 rfl,
    Int.floor_eq_iff.mpr (by norm_num [msgRecognizing]), by decide,
    (loggerStep_progress_spec msgLoading initialState).2 (by decide)⟩

/-- C8: the displayed preview is exactly the first 500 characters plus the
continuation marker when the text is longer than 500 characters, the full
text with no marker otherwise; the stored text field is always the full
trimmed raw text, never truncated. -/
theorem previewText_spec :
    (∀ s : String,
      (500 < s.length →
        previewText s = String.mk (s.data.take 500) ++ "..."
        ∧ (String.mk (s.data.take 500)).length = 500)
      ∧ (s.length ≤ 500 → previewText s = s))
    ∧ (∀ (raw : String) (c : ℚ) (file : FileInfo) (now : String),
        (buildResult raw c file now).text = jsTrim raw) := by
  constructor
  · intro s
    constructor
    · intro h
      have h' : 500 < s.data.length := h
      constructor
      · simp [previewText, h', h]
      · show (s.data.take 500).length = 500
        simp [List.length_take]
        omega
    · intro h
      have h' : s.data.length ≤ 500 := h
      have ht : s.data.take 500 = s.data := List.take_of_length_le h'
      have hlt : ¬ 500 < s.length := by omega
      simp [previewText, ht, hlt]
  · intro raw c file now
    rfl

/-- C8 (witness): a 600-character text is previewed as its first 500
characters plus the marker; a 400-character text is shown in full. -/
theorem previewText_spec_witness :
    500 < chars600.length
    ∧ previewText chars600 = String.mk (chars600.data.take 500) ++ "..."
    ∧ (String.mk (chars600.data.take 500)).length = 500
    ∧ chars400.length ≤ 500
    ∧ previewText chars400 = chars400 := by
  have h1 : 500 < chars600.length := by
    show 500 < (List.replicate 600 'x').length
    rw [List.length_replicate]
    omega
  have h2 : chars400.length ≤ 500 := by
    show (List.replicate 400 'x').length ≤ 500
    rw [List.length_replicate]
    omega
  have ha := (previewText_spec.1 chars600).1 h1
  have hb := (previewText_spec.1 chars400).2 h2
  exact ⟨h1, ha.1, ha.2, h2, hb⟩

/-- C9: invoking the clipboard export when no result record is live is a
complete no-op: no write is attempted, no notice of either kind is shown,
and the state is unchanged. -/
theorem copyToClipboard_none_noop :
    ∀ (ok : Bool) (s : AppState), s.extractedData = none →
      copyToClipboard ok s
        = { state := s, clipboardWrites := 0, successToasts := 0
            errorToasts := 0 } := by
  intro ok s h
  cases s with
  | mk ip pr ed =>
    have h' : ed = none := h
    subst h'
    rfl

/-- C9 (witness): the export at the initial state. -/
theorem copyToClipboard_none_noop_witness :
    initialState.extractedData = none
    ∧ copyToClipboard true initialState
        = { state := initialState, clipboardWrites := 0, successToasts := 0
            errorToasts := 0 } :=
  ⟨rfl, copyToClipboard_none_noop true initialState rfl⟩

/-- C10: in every reachable application state, isProcessing = false implies
progress = 0; moreover every `processImage` invocation ends with progress 0
and isProcessing false on the success path as well as on failure. -/
theorem reachable_progress_invariant :
    (∀ s : AppState, Reachable s → s.isProcessing = false → s.progress = 0)
    ∧ (∀ (env : OcrEnv) (file : FileInfo) (s : AppState),
        (processImage env file s).state.progress = 0
        ∧ (processImage env file s).state.isProcessing = false) := by
  constructor
  · intro s hr
    induction hr with
    | init => intro _; rfl
    | @step s0 s1 hr hstep ih =>
      cases hstep with
      | drop env files =>
        cases files with
        | nil => exact ih
        | cons f rest =>
          by_cases hp : f.type = "application/pdf"
          · have hs : (onDrop env (f :: rest) s0).state = s0 := by
              simp [onDrop, hp, processPDF]
            rw [hs]
            exact ih
          · intro _
            have hs : (onDrop env (f :: rest) s0).state
                = (processImage env f s0).state := by
              simp [onDrop, hp]
            rw [hs]
            exact (processImage_resets env f s0).1
      | copy ok =>
        rw [copyToClipboard_state ok s0]
        exact ih
      | resetApp => intro _; rfl
  · exact processImage_resets

/-- C10 (witness): the state after a reset is reachable and satisfies the
invariant. -/
theorem reachable_progress_invariant_witness :
    Reachable (reset initialState)
    ∧ (reset initialState).isProcessing = false
    ∧ (reset initialState).progress = 0 := by
  have hr : Reachable (reset initialState) :=
    Reachable.step Reachable.init (Step.resetApp initialState)
  exact ⟨hr, rfl, reachable_progress_invariant.1 (reset initialState) hr rfl⟩
